import Mathlib

/-!
Verification development for the Kubo Market "Idempotency Shield" service
(Go sources under `internal/` and `cmd/server`).  The Go code is embedded
shallowly: pure functions become Lean functions, the PostgreSQL repository
becomes explicit state passing over a `Store`, `time.Time` becomes `Int`
(nanoseconds since the Unix epoch, as in Go's `UnixNano`), `int64` becomes
`Int`, and `*json.RawMessage` payloads become `Option String`.
-/

namespace IdemShield

/-- `domain.Status` from `internal/domain/models.go`: the three DB-checked
payment states. -/
inductive Status where
  | processing
  | succeeded
  | failed
deriving DecidableEq, Repr

/-- `domain.PaymentRequest` from `internal/domain/models.go`. -/
structure PaymentRequest where
  idempotencyKey : String
  merchantID : String
  customerID : String
  amount : Int
  currency : String
deriving DecidableEq, Repr

/-- The canonical encoding hashed by `PaymentRequest.Hash`:
`fmt.Sprintf("%s|%s|%d|%s", p.MerchantID, p.CustomerID, p.Amount, p.Currency)`.
Go's `%d` on an `int64` agrees with Lean's `toString : Int → String`. -/
def canonicalParams (p : PaymentRequest) : String :=
  p.merchantID ++ "|" ++ p.customerID ++ "|" ++ toString p.amount ++ "|" ++ p.currency

/-! ### SHA-256 (Go `crypto/sha256.Sum256`), over UTF-8 bytes, hex output

Bytes and 32-bit words are `Nat` with explicit reduction mod `2 ^ 32`. -/

/-- UTF-8 encoding of a single character (Go strings are UTF-8 byte slices). -/
def utf8EncodeChar (c : Char) : List Nat :=
  let n := c.toNat
  if n < 128 then [n]
  else if n < 2048 then [192 ||| (n >>> 6), 128 ||| (n &&& 63)]
  else if n < 65536 then
    [224 ||| (n >>> 12), 128 ||| ((n >>> 6) &&& 63), 128 ||| (n &&& 63)]
  else
    [240 ||| (n >>> 18), 128 ||| ((n >>> 12) &&& 63),
     128 ||| ((n >>> 6) &&& 63), 128 ||| (n &&& 63)]

/-- The UTF-8 bytes of a string, each in `0..255`. -/
def utf8Bytes (s : String) : List Nat :=
  (s.data.map utf8EncodeChar).flatten

def w32 : Nat := 4294967296

/-- Right rotation of a 32-bit word. -/
def rotr32 (n x : Nat) : Nat :=
  ((x >>> n) ||| (x <<< (32 - n))) % w32

def xor32 (a b : Nat) : Nat := a ^^^ b

def not32 (x : Nat) : Nat := x ^^^ 4294967295

def shaCh (x y z : Nat) : Nat := xor32 (x &&& y) (not32 x &&& z)

def shaMaj (x y z : Nat) : Nat := xor32 (xor32 (x &&& y) (x &&& z)) (y &&& z)

def bigSigma0 (x : Nat) : Nat := xor32 (xor32 (rotr32 2 x) (rotr32 13 x)) (rotr32 22 x)

def bigSigma1 (x : Nat) : Nat := xor32 (xor32 (rotr32 6 x) (rotr32 11 x)) (rotr32 25 x)

def smallSigma0 (x : Nat) : Nat := xor32 (xor32 (rotr32 7 x) (rotr32 18 x)) (x >>> 3)

def smallSigma1 (x : Nat) : Nat := xor32 (xor32 (rotr32 17 x) (rotr32 19 x)) (x >>> 10)

/-- The 64 SHA-256 round constants (FIPS 180-4), in decimal. -/
def shaK : List Nat :=
  [1116352408, 1899447441, 3049323471, 3921009573, 961987163,
   1508970993, 2453635748, 2870763221, 3624381080, 310598401,
   607225278, 1426881987, 1925078388, 2162078206, 2614888103,
   3248222580, 3835390401, 4022224774, 264347078, 604807628,
   770255983, 1249150122, 1555081692, 1996064986, 2554220882,
   2821834349, 2952996808, 3210313671, 3336571891, 3584528711,
   113926993, 338241895, 666307205, 773529912, 1294757372,
   1396182291, 1695183700, 1986661051, 2177026350, 2456956037,
   2730485921, 2820302411, 3259730800, 3345764771, 3516065817,
   3600352804, 4094571909, 275423344, 430227734, 506948616,
   659060556, 883997877, 958139571, 1322822218, 1537002063,
   1747873779, 1955562222, 2024104815, 2227730452, 2361852424,
   2428436474, 2756734187, 3204031479, 3329325298]

/-- The initial SHA-256 hash state (FIPS 180-4), in decimal. -/
def shaH0 : List Nat :=
  [1779033703, 3144134277, 1013904242, 2773480762,
   1359893119, 2600822924, 528734635, 1541459225]

def wordAt (l : List Nat) (i : Nat) : Nat := l.getD i 0

/-- Extend a message schedule by one word. -/
def scheduleStep (w : List Nat) : List Nat :=
  let n := w.length
  let s0 := smallSigma0 (wordAt w (n - 15))
  let s1 := smallSigma1 (wordAt w (n - 2))
  w ++ [(wordAt w (n - 16) + s0 + wordAt w (n - 7) + s1) % w32]

/-- Extend the 16 block words to the 64-word schedule. -/
def buildSchedule (w16 : List Nat) : List Nat :=
  Nat.repeat scheduleStep 48 w16

/-- One round of the SHA-256 compression loop; the state is
`[a, b, c, d, e, f, g, h]`. -/
def compressRound (w : List Nat) (st : List Nat) (i : Nat) : List Nat :=
  let a := wordAt st 0
  let b := wordAt st 1
  let c := wordAt st 2
  let d := wordAt st 3
  let e := wordAt st 4
  let f := wordAt st 5
  let g := wordAt st 6
  let h := wordAt st 7
  let t1 := (h + bigSigma1 e + shaCh e f g + wordAt shaK i + wordAt w i) % w32
  let t2 := (bigSigma0 a + shaMaj a b c) % w32
  [(t1 + t2) % w32, a, b, c, (d + t1) % w32, e, f, g]

/-- Compress one 16-word block into the running hash state. -/
def shaCompress (hs : List Nat) (block : List Nat) : List Nat :=
  let w := buildSchedule block
  let st := (List.range 64).foldl (compressRound w) hs
  (hs.zip st).map (fun p => (p.1 + p.2) % w32)

/-- Big-endian 8-byte encoding of a (bit-)length. -/
def be64 (n : Nat) : List Nat :=
  [(n >>> 56) % 256, (n >>> 48) % 256, (n >>> 40) % 256, (n >>> 32) % 256,
   (n >>> 24) % 256, (n >>> 16) % 256, (n >>> 8) % 256, n % 256]

/-- SHA-256 padding: `0x80`, zeros to 56 mod 64, then the 64-bit bit length. -/
def shaPad (msg : List Nat) : List Nat :=
  let len := msg.length
  let zeros := (64 - ((len + 9) % 64)) % 64
  msg ++ [128] ++ List.replicate zeros 0 ++ be64 (len * 8)

/-- Split a byte list into chunks of the given positive size. -/
def chunksOf (k : Nat) (hk : 0 < k) (l : List Nat) : List (List Nat) :=
  if h : l = [] then []
  else
    (l.take k) :: chunksOf k hk (l.drop k)
termination_by l.length
decreasing_by
  simp only [List.length_drop]
  exact Nat.sub_lt (List.length_pos.mpr h) hk

/-- Fold 4 big-endian bytes into a 32-bit word. -/
def bytesToWord (bs : List Nat) : Nat :=
  bs.foldl (fun acc b => acc * 256 + b) 0

/-- Turn 64 bytes into 16 big-endian 32-bit words. -/
def blockWords (bs : List Nat) : List Nat :=
  (chunksOf 4 (by decide) bs).map bytesToWord

/-- SHA-256 of a byte list: the 8 words of the digest. -/
def sha256Words (msg : List Nat) : List Nat :=
  ((chunksOf 64 (by decide) (shaPad msg)).map blockWords).foldl shaCompress shaH0

/-- Lowercase hex of one 32-bit word (8 nibbles, most significant first). -/
def wordToHex (x : Nat) : List Char :=
  (List.range 8).map (fun i => Nat.digitChar ((x >>> (28 - 4 * i)) &&& 15))

/-- Lowercase hex SHA-256 digest of a string, as produced by Go's
`fmt.Sprintf("%x", sha256.Sum256([]byte(s)))`. -/
def sha256hex (s : String) : String :=
  String.mk (((sha256Words (utf8Bytes s)).map wordToHex).flatten)

/-- `PaymentRequest.Hash` from `internal/domain/models.go`: SHA-256 hex digest
of the canonical payment parameters. -/
def PaymentRequest.hash (p : PaymentRequest) : String :=
  sha256hex (canonicalParams p)

/-- `domain.IdempotencyRecord` from `internal/domain/models.go` (one row of
the `idempotency_keys` table). -/
structure Record where
  id : Nat
  idempotencyKey : String
  merchantID : String
  customerID : String
  amount : Int
  currency : String
  status : Status
  requestHash : String
  responseBody : Option String
  paymentID : String
  attemptCount : Nat
  firstSeenAt : Int
  lastSeenAt : Int
  completedAt : Option Int
  expiresAt : Int
deriving DecidableEq, Repr

/-- `IdempotencyRecord.IsExpired`: `time.Now().After(r.ExpiresAt)`. -/
def Record.isExpired (r : Record) (now : Int) : Bool :=
  now > r.expiresAt

/-- The `idempotency_keys` table: at most one record per key (UNIQUE
constraint), plus the BIGSERIAL id counter. -/
structure Store where
  recs : String → Option Record
  nextId : Nat

def emptyStore : Store := ⟨fun _ => none, 1⟩

def Store.update (s : Store) (key : String) (r : Record) : Store :=
  ⟨fun k => if k = key then some r else s.recs k, s.nextId⟩

/-- `PostgresRepository.InsertOrGet` (storage/repository.go): atomic
`INSERT ... ON CONFLICT (idempotency_key) DO UPDATE SET last_seen_at = $8,
attempt_count = attempt_count + 1 RETURNING *`, run under the per-key
advisory lock.  Returns (post-state store, returned row, isNew), where
`isNew := rec.AttemptCount == 1` is computed from the returned row. -/
def insertOrGet (req : PaymentRequest) (paymentID : String) (expiresAt now : Int)
    (s : Store) : Store × Record × Bool :=
  match s.recs req.idempotencyKey with
  | some r =>
    let r' := { r with lastSeenAt := now, attemptCount := r.attemptCount + 1 }
    (s.update req.idempotencyKey r', r', r'.attemptCount == 1)
  | none =>
    let r : Record :=
      { id := s.nextId
        idempotencyKey := req.idempotencyKey
        merchantID := req.merchantID
        customerID := req.customerID
        amount := req.amount
        currency := req.currency
        status := .processing
        requestHash := req.hash
        responseBody := none
        paymentID := paymentID
        attemptCount := 1
        firstSeenAt := now
        lastSeenAt := now
        completedAt := none
        expiresAt := expiresAt }
    (⟨fun k => if k = req.idempotencyKey then some r else s.recs k, s.nextId + 1⟩,
     r, r.attemptCount == 1)

/-- Result of `PostgresRepository.MarkComplete` / the completion service. -/
inductive CompleteResult where
  | ok
  | keyNotFound
  | alreadyCompleted
  | invalidStatus
deriving DecidableEq, Repr

/-- `PostgresRepository.MarkComplete`: `UPDATE idempotency_keys SET
status = $1, response_body = $2, completed_at = NOW() WHERE
idempotency_key = $3 AND status = 'processing'`; 0 rows → `ErrKeyNotFound`
if the key is absent, else `ErrAlreadyCompleted`.  Note `response_body`
is set to the supplied value (possibly NULL) unconditionally. -/
def markComplete (key : String) (status : Status) (responseBody : Option String)
    (now : Int) (s : Store) : Store × CompleteResult :=
  match s.recs key with
  | none => (s, .keyNotFound)
  | some r =>
    if r.status = .processing then
      (s.update key { r with status := status, responseBody := responseBody,
                             completedAt := some now }, .ok)
    else
      (s, .alreadyCompleted)

/-- `PostgresRepository.ResetToProcessing`: `UPDATE idempotency_keys SET
status = 'processing', payment_id = $1, completed_at = NULL, expires_at = $2,
last_seen_at = NOW() WHERE idempotency_key = $3 AND status = 'failed'`.
Matches zero rows (and silently changes nothing) unless the record exists
with status `failed`. -/
def resetToProcessing (key : String) (newPaymentID : String) (expiresAt now : Int)
    (s : Store) : Store :=
  match s.recs key with
  | some r =>
    if r.status = .failed then
      s.update key { r with status := .processing, paymentID := newPaymentID,
                            completedAt := none, expiresAt := expiresAt,
                            lastSeenAt := now }
    else s
  | none => s

/-- `validateRequest` from `internal/service/idempotency.go`. -/
def validateRequest (req : PaymentRequest) : Bool :=
  req.idempotencyKey != "" && req.merchantID != "" && req.customerID != "" &&
  req.amount ≥ 0 && req.currency != ""

/-- `generatePaymentID` from `internal/service/idempotency.go`:
`fmt.Sprintf("pay_%d", time.Now().UnixNano())` — a pure function of the
wall-clock nanosecond reading, with no other entropy source. -/
def generatePaymentID (unixNano : Int) : String :=
  "pay_" ++ toString unixNano

/-- `domain.PaymentResponse`. -/
structure PaymentResponse where
  paymentID : String
  idempotencyKey : String
  status : Status
  message : String
  attemptCount : Nat
  responseBody : Option String := none
deriving DecidableEq, Repr

/-- The error values `ProcessPayment` can surface (the model's total store
never fails, so the 500 paths for store errors do not arise). -/
inductive PErr where
  | validation
  | paramsMismatch
deriving DecidableEq, Repr

/-- Return value of `ProcessPayment`: `(*PaymentResponse, int, error)`. -/
inductive ProcessResult where
  | ok (resp : PaymentResponse) (code : Nat)
  | err (code : Nat) (e : PErr)
deriving DecidableEq, Repr

def ProcessResult.code : ProcessResult → Nat
  | .ok _ c => c
  | .err c _ => c

/-- `IdempotencyService.ProcessPayment` (internal/service/idempotency.go).
The freshly generated payment id and the clock reading are passed in
(`paymentID = generatePaymentID now` in the service); `ttl` is the
service's `expiryTTL`. -/
def processPayment (req : PaymentRequest) (paymentID : String) (now ttl : Int)
    (s : Store) : Store × ProcessResult :=
  if !validateRequest req then (s, .err 422 .validation)
  else
    let expiresAt := now + ttl
    let (s1, rec, isNew) := insertOrGet req paymentID expiresAt now s
    if isNew then
      (s1, .ok { paymentID := rec.paymentID, idempotencyKey := rec.idempotencyKey,
                 status := .processing, message := "payment accepted for processing",
                 attemptCount := 1 } 201)
    else if rec.isExpired now then
      let s2 := resetToProcessing rec.idempotencyKey paymentID expiresAt now s1
      (s2, .ok { paymentID := paymentID, idempotencyKey := rec.idempotencyKey,
                 status := .processing,
                 message := "expired key reused, payment accepted for processing",
                 attemptCount := rec.attemptCount } 201)
    else
      let requestHash := req.hash
      match rec.status with
      | .processing =>
        if rec.requestHash ≠ requestHash then (s1, .err 422 .paramsMismatch)
        else
          (s1, .ok { paymentID := rec.paymentID, idempotencyKey := rec.idempotencyKey,
                     status := .processing,
                     message := "payment is already being processed",
                     attemptCount := rec.attemptCount } 409)
      | .succeeded =>
        (s1, .ok { paymentID := rec.paymentID, idempotencyKey := rec.idempotencyKey,
                   status := .succeeded, message := "payment already succeeded",
                   attemptCount := rec.attemptCount,
                   responseBody := rec.responseBody } 200)
      | .failed =>
        if rec.requestHash ≠ requestHash then (s1, .err 422 .paramsMismatch)
        else
          let s2 := resetToProcessing rec.idempotencyKey paymentID expiresAt now s1
          (s2, .ok { paymentID := paymentID, idempotencyKey := rec.idempotencyKey,
                     status := .processing,
                     message := "previous attempt failed, retrying",
                     attemptCount := rec.attemptCount } 201)

/-- `domain.CompleteRequest`. -/
structure CompleteRequest where
  status : Status
  responseBody : Option String := none
deriving DecidableEq, Repr

/-- `IdempotencyService.MarkComplete`: rejects statuses other than
`succeeded`/`failed` with `ErrInvalidStatus`, then delegates to the
repository. -/
def markCompleteService (key : String) (req : CompleteRequest) (now : Int)
    (s : Store) : Store × CompleteResult :=
  if req.status ≠ .succeeded ∧ req.status ≠ .failed then (s, .invalidStatus)
  else markComplete key req.status req.responseBody now s

/-- A sequence of same-request `ProcessPayment` calls (the per-key advisory
lock serializes same-key calls, so `N` concurrent calls execute as a
sequence in lock-acquisition order); each call carries its generated
payment id and clock reading. -/
def runCalls (req : PaymentRequest) (ttl : Int) :
    List (String × Int) → Store → Store × List ProcessResult
  | [], s => (s, [])
  | (pid, now) :: rest, s =>
    let (s1, r) := processPayment req pid now ttl s
    let (s2, rs) := runCalls req ttl rest s1
    (s2, r :: rs)

/-! ### Outcome views (spec §4.C / §6: outcome codes as the transport sees
them, distinguished exactly as the Go code distinguishes them). -/

def isAcceptedNew : ProcessResult → Bool
  | .ok resp code => code == 201 && resp.message == "payment accepted for processing"
  | .err _ _ => false

def isExpiredReused : ProcessResult → Bool
  | .ok resp code =>
    code == 201 && resp.message == "expired key reused, payment accepted for processing"
  | .err _ _ => false

def isInProgress : ProcessResult → Bool
  | .ok resp code => code == 409 && resp.message == "payment is already being processed"
  | .err _ _ => false

def isReplay : ProcessResult → Bool
  | .ok resp code => code == 200 && resp.message == "payment already succeeded"
  | .err _ _ => false

def isAcceptedRetry : ProcessResult → Bool
  | .ok resp code => code == 201 && resp.message == "previous attempt failed, retrying"
  | .err _ _ => false

def isMismatchRejection : ProcessResult → Bool
  | .ok _ _ => false
  | .err code e => code == 422 && e == .paramsMismatch

def isInvalidRequest : ProcessResult → Bool
  | .ok _ _ => false
  | .err code e => code == 422 && e == .validation

/-! ### Store-level operation traces (spec §4.A), for reachability
invariants. -/

/-- One Record Store mutation: `insert_or_bump` (= `InsertOrGet`),
`conditional_complete` (= `MarkComplete`), `reset_to_processing`
(= `ResetToProcessing`). -/
inductive StoreOp where
  | insertOrBump (req : PaymentRequest) (paymentID : String) (expiresAt now : Int)
  | complete (key : String) (target : Status) (payload : Option String) (now : Int)
  | reset (key paymentID : String) (expiresAt now : Int)

def applyOp (s : Store) : StoreOp → Store
  | .insertOrBump req pid exp now => (insertOrGet req pid exp now s).1
  | .complete key target payload now => (markComplete key target payload now s).1
  | .reset key pid exp now => resetToProcessing key pid exp now s

/-- The store after a trace of operations, starting from the empty table. -/
def runTrace (tr : List StoreOp) : Store :=
  tr.foldl applyOp emptyStore

/-- `conditional_complete`'s spec-level signature restricts
`target_status ∈ {succeeded, failed}` (the service enforces this via
`ErrInvalidStatus`). -/
def completeTargetOk : StoreOp → Prop
  | .complete _ target _ _ => target = .succeeded ∨ target = .failed
  | _ => True

/-! ### Duplicate Reporter (`service.ReportingService`,
`PostgresRepository.GetDuplicates` / `GetMerchantStats`).  The database is a
list of rows; SQL `WHERE` clauses become filters.  SQL numeric aggregates
are `Int`, and the float64 `duplicate_rate` is modelled exactly in `ℚ`. -/

/-- The `WHERE merchant_id = $1 AND first_seen_at >= $2 AND
first_seen_at <= $3` range condition shared by the reporter queries. -/
def inRange (merchantID : String) (tFrom tTo : Int) (r : Record) : Bool :=
  r.merchantID == merchantID && tFrom ≤ r.firstSeenAt && r.firstSeenAt ≤ tTo

/-- `PostgresRepository.GetDuplicates`: in-range rows with
`attempt_count > 1`.  (The SQL also orders by `attempt_count DESC`; the
ordering is presentational and not modelled — every reported aggregate and
the membership of `suspicious_keys` are order-insensitive.) -/
def getDuplicates (db : List Record) (merchantID : String) (tFrom tTo : Int) :
    List Record :=
  db.filter (fun r => inRange merchantID tFrom tTo r && r.attemptCount > 1)

/-- `PostgresRepository.GetMerchantStats`:
`SELECT COALESCE(SUM(attempt_count), 0), COUNT(*)` over the in-range rows. -/
def getMerchantStats (db : List Record) (merchantID : String) (tFrom tTo : Int) :
    Int × Int :=
  let rows := db.filter (inRange merchantID tFrom tTo)
  ((rows.map (fun r => (r.attemptCount : Int))).sum, rows.length)

/-- `domain.SuspiciousKey`. -/
structure SuspiciousKey where
  idempotencyKey : String
  attemptCount : Nat
  amount : Int
  currency : String
  status : Status
  firstSeenAt : Int
  lastSeenAt : Int
deriving DecidableEq, Repr

def toSuspicious (r : Record) : SuspiciousKey :=
  { idempotencyKey := r.idempotencyKey, attemptCount := r.attemptCount,
    amount := r.amount, currency := r.currency, status := r.status,
    firstSeenAt := r.firstSeenAt, lastSeenAt := r.lastSeenAt }

/-- `service.suspiciousThreshold = 3`. -/
def suspiciousThreshold : Nat := 3

/-- `domain.DuplicateReport`; the Go `map[string]int64` currency breakdown
is a total function defaulting to 0 (Go's `+=` on a missing key reads 0). -/
structure DuplicateReport where
  merchantID : String
  totalRequests : Int
  uniquePayments : Int
  duplicateCount : Int
  duplicateRate : ℚ
  suspiciousKeys : List SuspiciousKey
  timeFrom : Int
  timeTo : Int
  amountAtRisk : Int
  currencyBreakdown : String → Int

/-- The body of `GetDuplicateReport`'s loop over the duplicate rows,
accumulating `(suspicious, amountAtRisk, currencyBreakdown)`. -/
def reportStep (acc : List SuspiciousKey × Int × (String → Int)) (d : Record) :
    List SuspiciousKey × Int × (String → Int) :=
  let suspicious :=
    if d.attemptCount > suspiciousThreshold then acc.1 ++ [toSuspicious d] else acc.1
  let atRisk := d.amount * ((d.attemptCount : Int) - 1)
  (suspicious, acc.2.1 + atRisk,
   fun c => if c = d.currency then acc.2.2 c + atRisk else acc.2.2 c)

/-- `ReportingService.GetDuplicateReport` (internal/service/reporting.go). -/
def getDuplicateReport (db : List Record) (merchantID : String) (tFrom tTo : Int) :
    DuplicateReport :=
  let duplicates := getDuplicates db merchantID tFrom tTo
  let stats := getMerchantStats db merchantID tFrom tTo
  let totalRequests := stats.1
  let uniquePayments := stats.2
  let duplicateCount := totalRequests - uniquePayments
  let duplicateRate : ℚ :=
    if totalRequests > 0 then (duplicateCount : ℚ) / (totalRequests : ℚ) * 100 else 0
  let acc := duplicates.foldl reportStep ([], 0, fun _ => 0)
  { merchantID := merchantID, totalRequests := totalRequests,
    uniquePayments := uniquePayments, duplicateCount := duplicateCount,
    duplicateRate := duplicateRate, suspiciousKeys := acc.1,
    timeFrom := tFrom, timeTo := tTo, amountAtRisk := acc.2.1,
    currencyBreakdown := acc.2.2 }

/-! ### Anomaly Monitor (`monitor.Metrics`) and the `withMetrics` middleware
(cmd/server/main.go).  Events are `(timestamp, isDuplicate)` pairs;
the float64 duplicate rate is modelled exactly in `ℚ`. -/

/-- `monitor.windowDuration = 5 * time.Minute`, in nanoseconds. -/
def windowDuration : Int := 300000000000

/-- `monitor.Metrics` (counters plus the sliding window). -/
structure Metrics where
  totalRequests : Int := 0
  newPayments : Int := 0
  duplicateBlocked : Int := 0
  retryAllowed : Int := 0
  cachedResponses : Int := 0
  paramMismatches : Int := 0
  window : List (Int × Bool) := []

/-- `Metrics.pruneWindow`: drop the leading entries with
`ts.Before(now − windowDuration)`. -/
def pruneWindow (now : Int) (w : List (Int × Bool)) : List (Int × Bool) :=
  w.dropWhile (fun e => e.1 < now - windowDuration)

/-- `Metrics.addWindow`: append the event, then prune. -/
def addWindow (now : Int) (isDuplicate : Bool) (m : Metrics) : Metrics :=
  { m with window := pruneWindow now (m.window ++ [(now, isDuplicate)]) }

def recordNew (now : Int) (m : Metrics) : Metrics :=
  addWindow now false
    { m with totalRequests := m.totalRequests + 1, newPayments := m.newPayments + 1 }

def recordDuplicate (now : Int) (m : Metrics) : Metrics :=
  addWindow now true
    { m with totalRequests := m.totalRequests + 1,
             duplicateBlocked := m.duplicateBlocked + 1 }

def recordRetry (now : Int) (m : Metrics) : Metrics :=
  addWindow now false
    { m with totalRequests := m.totalRequests + 1, retryAllowed := m.retryAllowed + 1 }

def recordCached (now : Int) (m : Metrics) : Metrics :=
  addWindow now true
    { m with totalRequests := m.totalRequests + 1,
             cachedResponses := m.cachedResponses + 1 }

def recordMismatch (now : Int) (m : Metrics) : Metrics :=
  addWindow now true
    { m with totalRequests := m.totalRequests + 1,
             paramMismatches := m.paramMismatches + 1 }

/-- `monitor.MetricsSnapshot`. -/
structure MetricsSnapshot where
  totalRequests : Int
  newPayments : Int
  duplicateBlocked : Int
  retryAllowed : Int
  cachedResponses : Int
  paramMismatches : Int
  windowRequests : Nat
  windowDuplicates : Nat
  windowDupRate : ℚ
  anomalyDetected : Bool
  anomalyThreshold : ℚ

/-- `Metrics.Snapshot`: count the window entries with `ts.After(cutoff)`,
compute the duplicate rate, and flag an anomaly iff the rate strictly
exceeds 20.0. -/
def snapshot (now : Int) (m : Metrics) : MetricsSnapshot :=
  let cutoff := now - windowDuration
  let windowReqs := m.window.countP (fun e => e.1 > cutoff)
  let windowDups := m.window.countP (fun e => e.1 > cutoff && e.2)
  let dupRate : ℚ :=
    if windowReqs > 0 then (windowDups : ℚ) / (windowReqs : ℚ) * 100 else 0
  { totalRequests := m.totalRequests, newPayments := m.newPayments,
    duplicateBlocked := m.duplicateBlocked, retryAllowed := m.retryAllowed,
    cachedResponses := m.cachedResponses, paramMismatches := m.paramMismatches,
    windowRequests := windowReqs, windowDuplicates := windowDups,
    windowDupRate := dupRate, anomalyDetected := decide (dupRate > 20),
    anomalyThreshold := 20 }

/-- The `withMetrics` middleware (cmd/server/main.go): dispatch on the HTTP
status code the payment handler wrote — which is exactly the `int` returned
by `ProcessPayment`. -/
def withMetricsStep (code : Nat) (now : Int) (m : Metrics) : Metrics :=
  if code = 201 then recordNew now m
  else if code = 200 then recordCached now m
  else if code = 409 then recordDuplicate now m
  else if code = 422 then recordMismatch now m
  else m

/-- The window event `withMetrics` generates for a `ProcessPayment` result:
`some b` means an event with `isDuplicate = b` is recorded, `none` means no
event. -/
def dupEventOf (res : ProcessResult) : Option Bool :=
  let code := res.code
  if code = 201 then some false
  else if code = 200 then some true
  else if code = 409 then some true
  else if code = 422 then some true
  else none

/-! ## Branch characterizations of `processPayment` -/

/-- The existing-row update performed by `InsertOrGet`'s
`ON CONFLICT DO UPDATE` clause. -/
def bumpRecord (r : Record) (now : Int) : Record :=
  { r with lastSeenAt := now, attemptCount := r.attemptCount + 1 }

theorem insertOrGet_existing (req : PaymentRequest) (pid : String) (exp now : Int)
    (s : Store) (r : Record) (hr : s.recs req.idempotencyKey = some r) :
    insertOrGet req pid exp now s =
      (s.update req.idempotencyKey (bumpRecord r now), bumpRecord r now,
       r.attemptCount + 1 == 1) := by
  simp [insertOrGet, hr, bumpRecord]

theorem processPayment_new (req : PaymentRequest) (pid : String) (now ttl : Int)
    (s : Store) (hv : validateRequest req = true)
    (hr : s.recs req.idempotencyKey = none) :
    processPayment req pid now ttl s =
      ((insertOrGet req pid (now + ttl) now s).1,
       .ok { paymentID := pid, idempotencyKey := req.idempotencyKey,
             status := .processing, message := "payment accepted for processing",
             attemptCount := 1 } 201) := by
  simp [processPayment, hv, insertOrGet, hr]

theorem processPayment_expired (req : PaymentRequest) (pid : String) (now ttl : Int)
    (s : Store) (r : Record) (hv : validateRequest req = true)
    (hr : s.recs req.idempotencyKey = some r) (ha : 1 ≤ r.attemptCount)
    (he : now > r.expiresAt) :
    processPayment req pid now ttl s =
      (resetToProcessing r.idempotencyKey pid (now + ttl) now
         (s.update req.idempotencyKey (bumpRecord r now)),
       .ok { paymentID := pid, idempotencyKey := r.idempotencyKey,
             status := .processing,
             message := "expired key reused, payment accepted for processing",
             attemptCount := r.attemptCount + 1 } 201) := by
  have hnew : (r.attemptCount + 1 == 1) = false := by
    rw [beq_eq_false_iff_ne]
    omega
  simp [processPayment, hv, insertOrGet_existing req pid (now + ttl) now s r hr,
        hnew, Record.isExpired, bumpRecord, he]

theorem processPayment_processing_match (req : PaymentRequest) (pid : String)
    (now ttl : Int) (s : Store) (r : Record) (hv : validateRequest req = true)
    (hr : s.recs req.idempotencyKey = some r) (ha : 1 ≤ r.attemptCount)
    (he : ¬ now > r.expiresAt) (hs : r.status = .processing)
    (hh : r.requestHash = req.hash) :
    processPayment req pid now ttl s =
      (s.update req.idempotencyKey (bumpRecord r now),
       .ok { paymentID := r.paymentID, idempotencyKey := r.idempotencyKey,
             status := .processing,
             message := "payment is already being processed",
             attemptCount := r.attemptCount + 1 } 409) := by
  have hnew : (r.attemptCount + 1 == 1) = false := by
    rw [beq_eq_false_iff_ne]
    omega
  simp [processPayment, hv, insertOrGet_existing req pid (now + ttl) now s r hr,
        hnew, Record.isExpired, bumpRecord, he, hs, hh]

theorem processPayment_processing_mismatch (req : PaymentRequest) (pid : String)
    (now ttl : Int) (s : Store) (r : Record) (hv : validateRequest req = true)
    (hr : s.recs req.idempotencyKey = some r) (ha : 1 ≤ r.attemptCount)
    (he : ¬ now > r.expiresAt) (hs : r.status = .processing)
    (hh : r.requestHash ≠ req.hash) :
    processPayment req pid now ttl s =
      (s.update req.idempotencyKey (bumpRecord r now), .err 422 .paramsMismatch) := by
  have hnew : (r.attemptCount + 1 == 1) = false := by
    rw [beq_eq_false_iff_ne]
    omega
  simp [processPayment, hv, insertOrGet_existing req pid (now + ttl) now s r hr,
        hnew, Record.isExpired, bumpRecord, he, hs, hh]

theorem processPayment_succeeded (req : PaymentRequest) (pid : String)
    (now ttl : Int) (s : Store) (r : Record) (hv : validateRequest req = true)
    (hr : s.recs req.idempotencyKey = some r) (ha : 1 ≤ r.attemptCount)
    (he : ¬ now > r.expiresAt) (hs : r.status = .succeeded) :
    processPayment req pid now ttl s =
      (s.update req.idempotencyKey (bumpRecord r now),
       .ok { paymentID := r.paymentID, idempotencyKey := r.idempotencyKey,
             status := .succeeded, message := "payment already succeeded",
             attemptCount := r.attemptCount + 1,
             responseBody := r.responseBody } 200) := by
  have hnew : (r.attemptCount + 1 == 1) = false := by
    rw [beq_eq_false_iff_ne]
    omega
  simp [processPayment, hv, insertOrGet_existing req pid (now + ttl) now s r hr,
        hnew, Record.isExpired, bumpRecord, he, hs]

theorem processPayment_failed_match (req : PaymentRequest) (pid : String)
    (now ttl : Int) (s : Store) (r : Record) (hv : validateRequest req = true)
    (hr : s.recs req.idempotencyKey = some r) (ha : 1 ≤ r.attemptCount)
    (he : ¬ now > r.expiresAt) (hs : r.status = .failed)
    (hh : r.requestHash = req.hash) :
    processPayment req pid now ttl s =
      (resetToProcessing r.idempotencyKey pid (now + ttl) now
         (s.update req.idempotencyKey (bumpRecord r now)),
       .ok { paymentID := pid, idempotencyKey := r.idempotencyKey,
             status := .processing,
             message := "previous attempt failed, retrying",
             attemptCount := r.attemptCount + 1 } 201) := by
  have hnew : (r.attemptCount + 1 == 1) = false := by
    rw [beq_eq_false_iff_ne]
    omega
  simp [processPayment, hv, insertOrGet_existing req pid (now + ttl) now s r hr,
        hnew, Record.isExpired, bumpRecord, he, hs, hh]

theorem processPayment_failed_mismatch (req : PaymentRequest) (pid : String)
    (now ttl : Int) (s : Store) (r : Record) (hv : validateRequest req = true)
    (hr : s.recs req.idempotencyKey = some r) (ha : 1 ≤ r.attemptCount)
    (he : ¬ now > r.expiresAt) (hs : r.status = .failed)
    (hh : r.requestHash ≠ req.hash) :
    processPayment req pid now ttl s =
      (s.update req.idempotencyKey (bumpRecord r now), .err 422 .paramsMismatch) := by
  have hnew : (r.attemptCount + 1 == 1) = false := by
    rw [beq_eq_false_iff_ne]
    omega
  simp [processPayment, hv, insertOrGet_existing req pid (now + ttl) now s r hr,
        hnew, Record.isExpired, bumpRecord, he, hs, hh]

/-! ## Concrete sample data for witnesses and counterexamples -/

def sampleReq : PaymentRequest :=
  { idempotencyKey := "key-A", merchantID := "m1", customerID := "c1",
    amount := 5000, currency := "BRL" }

/-- A concrete stored row for `sampleReq`'s key, with the varying fields as
parameters. -/
def mkRec (st : Status) (hash pid : String) (body : Option String)
    (compAt : Option Int) (exp : Int) : Record :=
  { id := 1, idempotencyKey := "key-A", merchantID := "m1", customerID := "c1",
    amount := 5000, currency := "BRL", status := st, requestHash := hash,
    responseBody := body, paymentID := pid, attemptCount := 1,
    firstSeenAt := 0, lastSeenAt := 0, completedAt := compAt, expiresAt := exp }

/-- A one-row table holding `r` under `sampleReq`'s key. -/
def storeWith (r : Record) : Store :=
  ⟨fun k => if k = "key-A" then some r else none, 2⟩

/-! ## C10 — payment id generation -/

/-- C10: the claim says payment identifiers are generated with enough
entropy that same-instant calls on different replicas collide only with
negligible probability, and in particular that the identifier is not a
deterministic function of the wall-clock time alone.  The code
(`generatePaymentID` = `fmt.Sprintf("pay_%d", time.Now().UnixNano())`)
*is* a deterministic function of the wall-clock nanosecond reading and
uses no entropy source: any two calls that observe the same clock reading
(e.g. on two replicas in the same nanosecond) produce the identical
identifier, with certainty rather than with negligible probability. -/
theorem generatePaymentID_deterministic_in_clock :
    (∀ t : Int, generatePaymentID t = "pay_" ++ toString t) ∧
    generatePaymentID 1700000000000000000 = "pay_1700000000000000000" :=
  ⟨fun _ => rfl, by decide⟩

/-! ## C2 — expired takes precedence over fingerprint and status -/

/-- C2: for a `process` call that finds an existing record (well-formed:
`attempt_count ≥ 1`) with `now > expires_at`, the outcome is
`Accepted{expired_reused}` (201, the expired-reuse message) carrying the
freshly generated payment id — with no hypothesis on the stored status,
the stored fingerprint, or the request's fingerprint, so the conclusion
holds regardless of both; the fingerprint/status dispatch of the
non-expired branches is never reached. -/
theorem c2_expired_takes_precedence (req : PaymentRequest) (pid : String)
    (now ttl : Int) (s : Store) (r : Record) (hv : validateRequest req = true)
    (hr : s.recs req.idempotencyKey = some r) (ha : 1 ≤ r.attemptCount)
    (he : now > r.expiresAt) :
    (processPayment req pid now ttl s).2 =
      .ok { paymentID := pid, idempotencyKey := r.idempotencyKey,
            status := .processing,
            message := "expired key reused, payment accepted for processing",
            attemptCount := r.attemptCount + 1 } 201 := by
  rw [processPayment_expired req pid now ttl s r hv hr ha he]

/-- Witness for C2 at a concrete store: an expired *succeeded* record whose
stored fingerprint differs from the request's. -/
theorem c2_expired_takes_precedence_witness :
    validateRequest sampleReq = true ∧
    (storeWith (mkRec .succeeded "otherhash" "pay_old" (some "RESP") (some 5) 10)).recs
        sampleReq.idempotencyKey =
      some (mkRec .succeeded "otherhash" "pay_old" (some "RESP") (some 5) 10) ∧
    (processPayment sampleReq "pay_new" 11 100
        (storeWith (mkRec .succeeded "otherhash" "pay_old" (some "RESP") (some 5) 10))).2 =
      .ok { paymentID := "pay_new", idempotencyKey := "key-A",
            status := .processing,
            message := "expired key reused, payment accepted for processing",
            attemptCount := 2 } 201 :=
  ⟨by decide, by rfl,
   c2_expired_takes_precedence sampleReq "pay_new" 11 100 _ _
     (by decide) (by rfl) (by decide) (by decide)⟩

/-! ## C1 — what the expired branch actually stores -/

/-- C1 counterexample: an expired record whose prior status is `succeeded`.
The call returns `Accepted{expired_reused}` with the fresh payment id, but
the stored row is *not* reset: `ResetToProcessing`'s `WHERE ... AND
status = 'failed'` clause matches no row, so the record keeps
`status = succeeded`, the old `payment_id`, its `completed_at`, and its old
`expires_at` — contradicting the claim's "regardless of the record's prior
status". -/
theorem c1_expired_reset_counterexample :
    isExpiredReused
        (processPayment sampleReq "pay_new" 11 100
          (storeWith (mkRec .succeeded "h" "pay_old" (some "RESP") (some 5) 10))).2
      = true ∧
    ((processPayment sampleReq "pay_new" 11 100
        (storeWith (mkRec .succeeded "h" "pay_old" (some "RESP") (some 5) 10))).1.recs
      "key-A").map (fun r => (r.status, r.paymentID, r.completedAt, r.expiresAt)) =
      some (.succeeded, "pay_old", some 5, 10) := by
  constructor
  · decide
  · decide

/-- C1 amended: on an expired existing record the outcome is
`Accepted{expired_reused}` with the fresh payment id, but the
`reset_to_processing` side effect takes hold **only when the prior status
was `failed`** (then the stored row gets `status = processing`,
`payment_id` = fresh id, `completed_at` absent, `expires_at = now + ttl`,
`last_seen_at = now`); for prior status `processing` or `succeeded` the
stored row keeps its prior `status`, `payment_id`, `completed_at` and
`expires_at`, with only `attempt_count` and `last_seen_at` bumped by
`insert_or_bump`. -/
theorem c1_expired_reset_amended (req : PaymentRequest) (pid : String)
    (now ttl : Int) (s : Store) (r : Record) (hv : validateRequest req = true)
    (hr : s.recs req.idempotencyKey = some r)
    (hk : r.idempotencyKey = req.idempotencyKey)
    (ha : 1 ≤ r.attemptCount) (he : now > r.expiresAt) :
    isExpiredReused (processPayment req pid now ttl s).2 = true ∧
    (r.status = .failed →
      (processPayment req pid now ttl s).1.recs req.idempotencyKey =
        some { r with status := .processing, paymentID := pid,
                      completedAt := none, expiresAt := now + ttl,
                      attemptCount := r.attemptCount + 1, lastSeenAt := now }) ∧
    (r.status ≠ .failed →
      (processPayment req pid now ttl s).1.recs req.idempotencyKey =
        some (bumpRecord r now)) := by
  rw [processPayment_expired req pid now ttl s r hv hr ha he]
  refine ⟨by simp [isExpiredReused], ?_, ?_⟩
  · intro hf
    simp [resetToProcessing, Store.update, hk, bumpRecord, hf]
  · intro hf
    simp [resetToProcessing, Store.update, hk, bumpRecord, hf]

/-- Witness for C1 (amended) at a concrete store with a prior `failed`
record, exercising the branch where the reset does fire. -/
theorem c1_expired_reset_amended_witness :
    validateRequest sampleReq = true ∧
    (mkRec .failed "h" "pay_old" none (some 5) 10).status = .failed ∧
    (processPayment sampleReq "pay_new" 11 100
        (storeWith (mkRec .failed "h" "pay_old" none (some 5) 10))).1.recs
      "key-A" =
      some { mkRec .failed "h" "pay_old" none (some 5) 10 with
             status := .processing, paymentID := "pay_new", completedAt := none,
             expiresAt := 111, attemptCount := 2, lastSeenAt := 11 } :=
  ⟨by decide, by decide,
   (c1_expired_reset_amended sampleReq "pay_new" 11 100 _ _
      (by decide) (by rfl) (by rfl) (by decide) (by decide)).2.1 (by decide)⟩

/-! ## C7 — frame conditions of the two Decision Engine mutations -/

/-- C7: (a) when `insert_or_bump` (`InsertOrGet`) hits an existing key the
stored row keeps every field except `last_seen_at` (set to now) and
`attempt_count` (incremented); (b) `reset_to_processing` never changes
`first_seen_at`, `request_fingerprint`, `merchant_id`, `customer_id`,
`amount` or `currency`, whether or not its `status = 'failed'` guard
fires. -/
theorem c7_frame_conditions :
    (∀ (req : PaymentRequest) (pid : String) (exp now : Int) (s : Store)
       (r r' : Record), s.recs req.idempotencyKey = some r →
       (insertOrGet req pid exp now s).1.recs req.idempotencyKey = some r' →
       r'.id = r.id ∧ r'.idempotencyKey = r.idempotencyKey ∧
       r'.merchantID = r.merchantID ∧ r'.customerID = r.customerID ∧
       r'.amount = r.amount ∧ r'.currency = r.currency ∧
       r'.status = r.status ∧ r'.requestHash = r.requestHash ∧
       r'.paymentID = r.paymentID ∧ r'.responseBody = r.responseBody ∧
       r'.firstSeenAt = r.firstSeenAt ∧ r'.completedAt = r.completedAt ∧
       r'.expiresAt = r.expiresAt ∧
       r'.lastSeenAt = now ∧ r'.attemptCount = r.attemptCount + 1) ∧
    (∀ (key pid : String) (exp now : Int) (s : Store) (r r' : Record),
       s.recs key = some r →
       (resetToProcessing key pid exp now s).recs key = some r' →
       r'.firstSeenAt = r.firstSeenAt ∧ r'.requestHash = r.requestHash ∧
       r'.merchantID = r.merchantID ∧ r'.customerID = r.customerID ∧
       r'.amount = r.amount ∧ r'.currency = r.currency) := by
  constructor
  · intro req pid exp now s r r' hr hr'
    rw [insertOrGet_existing req pid exp now s r hr] at hr'
    simp only [Store.update, if_pos rfl] at hr'
    obtain rfl : bumpRecord r now = r' := by
      simpa using hr'
    simp [bumpRecord]
  · intro key pid exp now s r r' hr hr'
    simp only [resetToProcessing, hr] at hr'
    by_cases hf : r.status = .failed
    · rw [if_pos hf] at hr'
      simp only [Store.update, if_pos rfl] at hr'
      obtain rfl :
          { r with status := Status.processing, paymentID := pid,
                   completedAt := none, expiresAt := exp, lastSeenAt := now } = r' := by
        simpa using hr'
      simp
    · rw [if_neg hf, hr] at hr'
      obtain rfl : r = r' := by simpa using hr'
      simp

/-- Witness for C7: both frame conditions applied at a concrete store. -/
theorem c7_frame_conditions_witness :
    ((storeWith (mkRec .processing "h" "pay_1" none none 10)).recs
        sampleReq.idempotencyKey =
      some (mkRec .processing "h" "pay_1" none none 10) ∧
     (insertOrGet sampleReq "pay_2" 20 3
        (storeWith (mkRec .processing "h" "pay_1" none none 10))).1.recs
        sampleReq.idempotencyKey =
      some (bumpRecord (mkRec .processing "h" "pay_1" none none 10) 3) ∧
     (bumpRecord (mkRec .processing "h" "pay_1" none none 10) 3).firstSeenAt =
      (mkRec .processing "h" "pay_1" none none 10).firstSeenAt) ∧
    ((resetToProcessing "key-A" "pay_3" 30 4
        (storeWith (mkRec .failed "h" "pay_1" none none 10))).recs "key-A").isSome =
      true := by
  have h1 := (c7_frame_conditions.1 sampleReq "pay_2" 20 3
    (storeWith (mkRec .processing "h" "pay_1" none none 10))
    (mkRec .processing "h" "pay_1" none none 10)
    (bumpRecord (mkRec .processing "h" "pay_1" none none 10) 3)
    (by rfl) (by rfl))
  have h2 := (c7_frame_conditions.2 "key-A" "pay_3" 30 4
    (storeWith (mkRec .failed "h" "pay_1" none none 10))
    (mkRec .failed "h" "pay_1" none none 10))
  exact ⟨⟨by rfl, by rfl, h1.2.2.2.2.2.2.2.2.2.2.1⟩, by decide⟩

/-! ## C4 — round-trip laws through the Completion Recorder -/

/-- C4: for a key holding a non-expired `processing` record created by the
same request, `complete(k, succeeded, P); process(k, same)` replays the
stored payload byte-identically (200, cached `response_body = P`), and
`complete(k, failed); process(k, same)` accepts a retry (201) carrying the
freshly generated payment id. -/
theorem c4_round_trip_laws :
    (∀ (req : PaymentRequest) (pid2 body : String) (now1 now2 ttl : Int)
       (s : Store) (r : Record), validateRequest req = true →
       s.recs req.idempotencyKey = some r → r.status = .processing →
       1 ≤ r.attemptCount → r.requestHash = req.hash → ¬ now2 > r.expiresAt →
       (processPayment req pid2 now2 ttl
          (markCompleteService req.idempotencyKey
            { status := .succeeded, responseBody := some body } now1 s).1).2 =
         .ok { paymentID := r.paymentID, idempotencyKey := r.idempotencyKey,
               status := .succeeded, message := "payment already succeeded",
               attemptCount := r.attemptCount + 1,
               responseBody := some body } 200) ∧
    (∀ (req : PaymentRequest) (pid2 : String) (now1 now2 ttl : Int)
       (s : Store) (r : Record), validateRequest req = true →
       s.recs req.idempotencyKey = some r → r.status = .processing →
       1 ≤ r.attemptCount → r.requestHash = req.hash → ¬ now2 > r.expiresAt →
       (processPayment req pid2 now2 ttl
          (markCompleteService req.idempotencyKey
            { status := .failed } now1 s).1).2 =
         .ok { paymentID := pid2, idempotencyKey := r.idempotencyKey,
               status := .processing,
               message := "previous attempt failed, retrying",
               attemptCount := r.attemptCount + 1 } 201) := by
  constructor
  · intro req pid2 body now1 now2 ttl s r hv hr hst ha hh he
    have hs1 : (markCompleteService req.idempotencyKey
        { status := .succeeded, responseBody := some body } now1 s).1 =
        s.update req.idempotencyKey
          { r with status := .succeeded, responseBody := some body,
                   completedAt := some now1 } := by
      simp [markCompleteService, markComplete, hr, hst]
    rw [hs1]
    have hr1 : (s.update req.idempotencyKey
        { r with status := .succeeded, responseBody := some body,
                 completedAt := some now1 }).recs req.idempotencyKey =
        some { r with status := .succeeded, responseBody := some body,
                      completedAt := some now1 } := by
      simp [Store.update]
    rw [processPayment_succeeded req pid2 now2 ttl _ _ hv hr1 ha he rfl]
  · intro req pid2 now1 now2 ttl s r hv hr hst ha hh he
    have hs1 : (markCompleteService req.idempotencyKey
        { status := .failed } now1 s).1 =
        s.update req.idempotencyKey
          { r with status := .failed, responseBody := none,
                   completedAt := some now1 } := by
      simp [markCompleteService, markComplete, hr, hst]
    rw [hs1]
    have hr1 : (s.update req.idempotencyKey
        { r with status := .failed, responseBody := none,
                 completedAt := some now1 }).recs req.idempotencyKey =
        some { r with status := .failed, responseBody := none,
                      completedAt := some now1 } := by
      simp [Store.update]
    rw [processPayment_failed_match req pid2 now2 ttl _ _ hv hr1 ha he rfl hh]

/-- Witness for C4: both laws at a concrete non-expired `processing` record
whose stored fingerprint is the request's digest. -/
theorem c4_round_trip_laws_witness :
    (processPayment sampleReq "pay_2" 6 100
        (markCompleteService sampleReq.idempotencyKey
          { status := .succeeded, responseBody := some "PAYLOAD" } 5
          (storeWith (mkRec .processing sampleReq.hash "pay_1" none none 50))).1).2 =
      .ok { paymentID := "pay_1", idempotencyKey := "key-A",
            status := .succeeded, message := "payment already succeeded",
            attemptCount := 2, responseBody := some "PAYLOAD" } 200 ∧
    (processPayment sampleReq "pay_2" 6 100
        (markCompleteService sampleReq.idempotencyKey { status := .failed } 5
          (storeWith (mkRec .processing sampleReq.hash "pay_1" none none 50))).1).2 =
      .ok { paymentID := "pay_2", idempotencyKey := "key-A",
            status := .processing,
            message := "previous attempt failed, retrying",
            attemptCount := 2 } 201 := by
  constructor
  · exact c4_round_trip_laws.1 sampleReq "pay_2" "PAYLOAD" 5 6 100
      (storeWith (mkRec .processing sampleReq.hash "pay_1" none none 50))
      (mkRec .processing sampleReq.hash "pay_1" none none 50)
      (by decide) (by rfl) (by rfl) (by decide) (by rfl) (by decide)
  · exact c4_round_trip_laws.2 sampleReq "pay_2" 5 6 100
      (storeWith (mkRec .processing sampleReq.hash "pay_1" none none 50))
      (mkRec .processing sampleReq.hash "pay_1" none none 50)
      (by decide) (by rfl) (by rfl) (by decide) (by rfl) (by decide)

/-! ## C3 — single winner under same-key concurrency -/

theorem runCalls_cons (req : PaymentRequest) (ttl : Int) (pid : String)
    (now : Int) (rest : List (String × Int)) (s : Store) :
    runCalls req ttl ((pid, now) :: rest) s =
      ((runCalls req ttl rest (processPayment req pid now ttl s).1).1,
       (processPayment req pid now ttl s).2 ::
         (runCalls req ttl rest (processPayment req pid now ttl s).1).2) := rfl

theorem runCalls_length (req : PaymentRequest) (ttl : Int) :
    ∀ (calls : List (String × Int)) (s : Store),
      (runCalls req ttl calls s).2.length = calls.length := by
  intro calls
  induction calls with
  | nil => intro s; simp [runCalls]
  | cons c rest ih =>
    intro s
    obtain ⟨pid, now⟩ := c
    rw [runCalls_cons]
    simp only [List.length_cons]
    rw [ih]

theorem isInProgress_not_acceptedNew (res : ProcessResult)
    (h : isInProgress res = true) : isAcceptedNew res = false := by
  cases res with
  | ok resp code =>
    simp only [isInProgress, Bool.and_eq_true, beq_iff_eq] at h
    simp [isAcceptedNew, h.1]
  | err _ _ => rfl

/-- Every call against a live same-fingerprint `processing` record comes
back `Rejected{in_progress}`, and the record stays `processing` with the
fingerprint and expiry intact. -/
theorem runCalls_all_in_progress (req : PaymentRequest) (ttl E : Int)
    (hv : validateRequest req = true) :
    ∀ (calls : List (String × Int)) (s : Store) (r : Record),
      s.recs req.idempotencyKey = some r → r.status = .processing →
      r.requestHash = req.hash → r.expiresAt = E → 1 ≤ r.attemptCount →
      (∀ c ∈ calls, c.2 ≤ E) →
      ∀ res ∈ (runCalls req ttl calls s).2, isInProgress res = true := by
  intro calls
  induction calls with
  | nil =>
    intro s r _ _ _ _ _ _ res hres
    simp [runCalls] at hres
  | cons c rest ih =>
    intro s r hr hst hh hE ha ht res hres
    obtain ⟨pid, now⟩ := c
    have hne : ¬ now > r.expiresAt := by
      have := ht (pid, now) (List.mem_cons_self _ _)
      simp only at this
      omega
    rw [runCalls_cons] at hres
    simp only [processPayment_processing_match req pid now ttl s r hv hr ha hne hst
      (hh.trans rfl)] at hres
    rcases List.mem_cons.mp hres with h | h
    · subst h
      simp [isInProgress]
    · refine ih (s.update req.idempotencyKey (bumpRecord r now)) (bumpRecord r now)
        ?_ ?_ ?_ ?_ ?_ ?_ res h
      · simp [Store.update]
      · simpa [bumpRecord] using hst
      · simpa [bumpRecord] using hh
      · simpa [bumpRecord] using hE
      · simp [bumpRecord]
      · intro c hc
        exact ht c (List.mem_cons_of_mem _ hc)

/-- C3: `N` same-key, same-request `process` calls executed in
lock-acquisition order against a fresh key (none completed in between, no
call past the expiry set by the winner) yield exactly one `Accepted{new}`
and `N − 1` `Rejected{in_progress}`. -/
theorem c3_single_winner (req : PaymentRequest) (ttl : Int) (pid1 : String)
    (now1 : Int) (rest : List (String × Int)) (s0 : Store)
    (hv : validateRequest req = true)
    (h0 : s0.recs req.idempotencyKey = none)
    (ht : ∀ c ∈ rest, c.2 ≤ now1 + ttl) :
    ((runCalls req ttl ((pid1, now1) :: rest) s0).2.length = rest.length + 1) ∧
    (runCalls req ttl ((pid1, now1) :: rest) s0).2.countP
        (fun res => isAcceptedNew res) = 1 ∧
    (runCalls req ttl ((pid1, now1) :: rest) s0).2.countP
        (fun res => isInProgress res) = rest.length := by
  have hfirst := processPayment_new req pid1 now1 ttl s0 hv h0
  have hs1 : (processPayment req pid1 now1 ttl s0).1.recs req.idempotencyKey =
      some { id := s0.nextId, idempotencyKey := req.idempotencyKey,
             merchantID := req.merchantID, customerID := req.customerID,
             amount := req.amount, currency := req.currency,
             status := .processing, requestHash := req.hash,
             responseBody := none, paymentID := pid1, attemptCount := 1,
             firstSeenAt := now1, lastSeenAt := now1, completedAt := none,
             expiresAt := now1 + ttl } := by
    rw [hfirst]
    simp [insertOrGet, h0]
  have htail := runCalls_all_in_progress req ttl (now1 + ttl) hv rest
    (processPayment req pid1 now1 ttl s0).1 _ hs1 rfl rfl rfl (le_refl 1) ht
  have hres1 : isAcceptedNew (processPayment req pid1 now1 ttl s0).2 = true := by
    rw [hfirst]
    simp [isAcceptedNew]
  have hres1' : isInProgress (processPayment req pid1 now1 ttl s0).2 = false := by
    rw [hfirst]
    simp [isInProgress]
  have hcount_tail : ∀ res ∈ (runCalls req ttl rest
      (processPayment req pid1 now1 ttl s0).1).2, isInProgress res = true := htail
  rw [runCalls_cons]
  simp only [List.length_cons, List.countP_cons]
  refine ⟨by rw [runCalls_length], ?_, ?_⟩
  · have hz : ((runCalls req ttl rest (processPayment req pid1 now1 ttl s0).1).2).countP
        (fun res => isAcceptedNew res) = 0 := by
      rw [List.countP_eq_zero]
      intro res hres
      simp [isInProgress_not_acceptedNew res (hcount_tail res hres)]
    rw [hres1, hz]
    simp
  · have hl : ((runCalls req ttl rest (processPayment req pid1 now1 ttl s0).1).2).countP
        (fun res => isInProgress res) =
        ((runCalls req ttl rest (processPayment req pid1 now1 ttl s0).1).2).length := by
      rw [List.countP_eq_length]
      intro res hres
      exact hcount_tail res hres
    rw [hres1', hl, runCalls_length]
    simp

/-- Witness for C3: ten concurrent calls on a fresh key — one
`Accepted{new}`, nine `Rejected{in_progress}`. -/
theorem c3_single_winner_witness :
    validateRequest sampleReq = true ∧
    emptyStore.recs sampleReq.idempotencyKey = none ∧
    ((runCalls sampleReq 100
        (("pay_1", 0) :: [("pay_2", 1), ("pay_3", 2), ("pay_4", 3), ("pay_5", 4),
          ("pay_6", 5), ("pay_7", 6), ("pay_8", 7), ("pay_9", 8), ("pay_10", 9)])
        emptyStore).2.length = 10 ∧
     (runCalls sampleReq 100
        (("pay_1", 0) :: [("pay_2", 1), ("pay_3", 2), ("pay_4", 3), ("pay_5", 4),
          ("pay_6", 5), ("pay_7", 6), ("pay_8", 7), ("pay_9", 8), ("pay_10", 9)])
        emptyStore).2.countP (fun res => isAcceptedNew res) = 1 ∧
     (runCalls sampleReq 100
        (("pay_1", 0) :: [("pay_2", 1), ("pay_3", 2), ("pay_4", 3), ("pay_5", 4),
          ("pay_6", 5), ("pay_7", 6), ("pay_8", 7), ("pay_9", 8), ("pay_10", 9)])
        emptyStore).2.countP (fun res => isInProgress res) = 9) :=
  ⟨by decide, by rfl,
   c3_single_winner sampleReq 100 "pay_1" 0
     [("pay_2", 1), ("pay_3", 2), ("pay_4", 3), ("pay_5", 4), ("pay_6", 5),
      ("pay_7", 6), ("pay_8", 7), ("pay_9", 8), ("pay_10", 9)]
     emptyStore (by decide) (by rfl) (by decide)⟩

/-! ## C6 — where response payloads can live -/

/-- The claimed invariant: a stored payload implies `status = succeeded`. -/
def payloadImpliesSucceeded (s : Store) : Prop :=
  ∀ k r, s.recs k = some r → r.responseBody ≠ none → r.status = .succeeded

/-- The payload discipline under which the invariant is actually inductive:
`conditional_complete` targets only `succeeded`/`failed` (spec signature),
and a `failed` completion carries no payload. -/
def opPayloadDiscipline : StoreOp → Prop
  | .complete _ target payload _ =>
    (target = .succeeded ∨ target = .failed) ∧ (target = .failed → payload = none)
  | _ => True

instance : DecidablePred opPayloadDiscipline := by
  intro op
  cases op <;> simp only [opPayloadDiscipline] <;> infer_instance

/-- C6 counterexample: the two-operation trace `insert_or_bump(k)` then
`conditional_complete(k, failed, payload = "OOPS")` — a legal operation
sequence per the claim — leaves a record with `status = failed` and a
*present* `response_payload`, because `MarkComplete` stores `response_body
= $2` regardless of the target status. -/
theorem c6_payload_counterexample :
    completeTargetOk (StoreOp.complete "key-A" .failed (some "OOPS") 5) ∧
    ((runTrace [.insertOrBump sampleReq "pay_1" 100 0,
                .complete "key-A" .failed (some "OOPS") 5]).recs "key-A").map
        (fun r => (r.status, r.responseBody)) = some (.failed, some "OOPS") := by
  exact ⟨Or.inr rfl, rfl⟩

theorem applyOp_payload (s : Store) (op : StoreOp)
    (hop : opPayloadDiscipline op) (hs : payloadImpliesSucceeded s) :
    payloadImpliesSucceeded (applyOp s op) := by
  cases op with
  | insertOrBump req pid exp now =>
    intro k r' hk hbody
    simp only [applyOp] at hk
    rcases hrec : s.recs req.idempotencyKey with _ | r0
    · simp only [insertOrGet, hrec] at hk
      by_cases hkey : k = req.idempotencyKey
      · rw [if_pos hkey] at hk
        obtain rfl : _ = r' := Option.some.inj hk
        simp at hbody
      · rw [if_neg hkey] at hk
        exact hs k r' hk hbody
    · simp only [insertOrGet, hrec, Store.update] at hk
      by_cases hkey : k = req.idempotencyKey
      · rw [if_pos hkey] at hk
        obtain rfl : _ = r' := Option.some.inj hk
        exact hs req.idempotencyKey r0 hrec (by simpa using hbody)
      · rw [if_neg hkey] at hk
        exact hs k r' hk hbody
  | complete key target payload now =>
    intro k r' hk hbody
    simp only [applyOp] at hk
    rcases hrec : s.recs key with _ | r0
    · simp only [markComplete, hrec] at hk
      exact hs k r' hk hbody
    · simp only [markComplete, hrec] at hk
      by_cases hproc : r0.status = .processing
      · rw [if_pos hproc] at hk
        simp only [Store.update] at hk
        by_cases hkey : k = key
        · rw [if_pos hkey] at hk
          obtain rfl : _ = r' := Option.some.inj hk
          simp only at hbody
          rcases hop.1 with hsu | hfa
          · simpa using hsu
          · exact absurd (hop.2 hfa) (by simpa [hfa] using hbody)
        · rw [if_neg hkey] at hk
          exact hs k r' hk hbody
      · rw [if_neg hproc] at hk
        exact hs k r' hk hbody
  | reset key pid exp now =>
    intro k r' hk hbody
    simp only [applyOp] at hk
    rcases hrec : s.recs key with _ | r0
    · simp only [resetToProcessing, hrec] at hk
      exact hs k r' hk hbody
    · simp only [resetToProcessing, hrec] at hk
      by_cases hfail : r0.status = .failed
      · rw [if_pos hfail] at hk
        simp only [Store.update] at hk
        by_cases hkey : k = key
        · rw [if_pos hkey] at hk
          obtain rfl : _ = r' := Option.some.inj hk
          simp only at hbody
          have : r0.status = .succeeded := hs key r0 hrec (by simpa using hbody)
          rw [hfail] at this
          cases this
        · rw [if_neg hkey] at hk
          exact hs k r' hk hbody
      · rw [if_neg hfail] at hk
        exact hs k r' hk hbody

/-- C6 amended: in every state reachable by `insert_or_bump`,
`conditional_complete` and `reset_to_processing` **where every `failed`
completion carries no payload**, a record's `response_payload` is present
only when its `status = succeeded`.  (Without that proviso the invariant
fails: `conditional_complete(k, failed, P)` stores `P` on the failed
record — see the counterexample — and `reset_to_processing` then carries
it into a `processing` record.) -/
theorem c6_payload_invariant_amended (tr : List StoreOp)
    (h : ∀ op ∈ tr, opPayloadDiscipline op) :
    payloadImpliesSucceeded (runTrace tr) := by
  suffices hgen : ∀ (tr : List StoreOp) (s : Store),
      (∀ op ∈ tr, opPayloadDiscipline op) → payloadImpliesSucceeded s →
      payloadImpliesSucceeded (tr.foldl applyOp s) by
    refine hgen tr emptyStore h ?_
    intro k r hk
    simp [emptyStore] at hk
  intro tr
  induction tr with
  | nil => intro s _ hs; exact hs
  | cons op rest ih =>
    intro s hops hs
    exact ih (applyOp s op) (fun o ho => hops o (List.mem_cons_of_mem _ ho))
      (applyOp_payload s op (hops op (List.mem_cons_self _ _)) hs)

/-- Witness for C6 (amended): a disciplined trace — insert, succeed with a
payload, reset — satisfies the invariant. -/
theorem c6_payload_invariant_amended_witness :
    (∀ op ∈ [StoreOp.insertOrBump sampleReq "pay_1" 100 0,
             .complete "key-A" .succeeded (some "RESP") 5,
             .reset "key-A" "pay_2" 200 6], opPayloadDiscipline op) ∧
    payloadImpliesSucceeded
      (runTrace [.insertOrBump sampleReq "pay_1" 100 0,
                 .complete "key-A" .succeeded (some "RESP") 5,
                 .reset "key-A" "pay_2" 200 6]) :=
  ⟨by decide,
   c6_payload_invariant_amended
     [.insertOrBump sampleReq "pay_1" 100 0,
      .complete "key-A" .succeeded (some "RESP") 5,
      .reset "key-A" "pay_2" 200 6] (by decide)⟩

/-! ## C9 — anomaly monitor classification -/

/-- Every result of `ProcessPayment` is one of the seven outcome shapes,
with its HTTP code and (for 201) one of the three acceptance messages. -/
theorem processPayment_shapes (req : PaymentRequest) (pid : String)
    (now ttl : Int) (s : Store) :
    ((processPayment req pid now ttl s).2 = .err 422 .validation) ∨
    ((processPayment req pid now ttl s).2 = .err 422 .paramsMismatch) ∨
    (∃ resp, (processPayment req pid now ttl s).2 = .ok resp 201 ∧
      (resp.message = "payment accepted for processing" ∨
       resp.message = "expired key reused, payment accepted for processing" ∨
       resp.message = "previous attempt failed, retrying")) ∨
    (∃ resp, (processPayment req pid now ttl s).2 = .ok resp 409 ∧
      resp.message = "payment is already being processed") ∨
    (∃ resp, (processPayment req pid now ttl s).2 = .ok resp 200 ∧
      resp.message = "payment already succeeded") := by
  by_cases hv : validateRequest req
  · rcases hrec : s.recs req.idempotencyKey with _ | r
    · rw [processPayment_new req pid now ttl s hv hrec]
      exact Or.inr (Or.inr (Or.inl ⟨_, rfl, Or.inl rfl⟩))
    · by_cases ha : 1 ≤ r.attemptCount
      · by_cases he : now > r.expiresAt
        · rw [processPayment_expired req pid now ttl s r hv hrec ha he]
          exact Or.inr (Or.inr (Or.inl ⟨_, rfl, Or.inr (Or.inl rfl)⟩))
        · rcases hst : r.status with _ | _ | _
          · by_cases hh : r.requestHash = req.hash
            · rw [processPayment_processing_match req pid now ttl s r hv hrec ha he hst hh]
              exact Or.inr (Or.inr (Or.inr (Or.inl ⟨_, rfl, rfl⟩)))
            · rw [processPayment_processing_mismatch req pid now ttl s r hv hrec ha he hst hh]
              exact Or.inr (Or.inl rfl)
          · rw [processPayment_succeeded req pid now ttl s r hv hrec ha he hst]
            exact Or.inr (Or.inr (Or.inr (Or.inr ⟨_, rfl, rfl⟩)))
          · by_cases hh : r.requestHash = req.hash
            · rw [processPayment_failed_match req pid now ttl s r hv hrec ha he hst hh]
              exact Or.inr (Or.inr (Or.inl ⟨_, rfl, Or.inr (Or.inr rfl)⟩))
            · rw [processPayment_failed_mismatch req pid now ttl s r hv hrec ha he hst hh]
              exact Or.inr (Or.inl rfl)
      · -- an ill-formed row with attempt_count = 0: the bump makes it 1 and
        -- the call is classified as new (201)
        have ha0 : r.attemptCount = 0 := by omega
        have : processPayment req pid now ttl s =
            (s.update req.idempotencyKey (bumpRecord r now),
             .ok { paymentID := (bumpRecord r now).paymentID,
                   idempotencyKey := (bumpRecord r now).idempotencyKey,
                   status := .processing,
                   message := "payment accepted for processing",
                   attemptCount := 1 } 201) := by
          simp [processPayment, hv, insertOrGet_existing req pid (now + ttl) now s r hrec,
                ha0, bumpRecord]
        rw [this]
        exact Or.inr (Or.inr (Or.inl ⟨_, rfl, Or.inl rfl⟩))
  · have : processPayment req pid now ttl s = (s, .err 422 .validation) := by
      simp [processPayment, hv]
    rw [this]
    exact Or.inl rfl

/-- C9 counterexample: an `InvalidRequest` result (empty `merchant_id`,
HTTP 422) *does* contribute a duplicate-ish event — `withMetrics` cannot
distinguish it from `Rejected{mismatch}`, which also maps to 422 — refuting
the claim's "no other result of process (in particular InvalidRequest)
contributes a duplicate-ish event". -/
theorem c9_invalid_request_counted_duplicate :
    isInvalidRequest (processPayment
        { idempotencyKey := "k", merchantID := "", customerID := "c",
          amount := 1, currency := "BRL" } "pay_x" 0 100 emptyStore).2 = true ∧
    dupEventOf (processPayment
        { idempotencyKey := "k", merchantID := "", customerID := "c",
          amount := 1, currency := "BRL" } "pay_x" 0 100 emptyStore).2 =
      some true := by
  exact ⟨rfl, rfl⟩

/-- C9 amended: the snapshot flags an anomaly iff the 5-minute-window
duplicate rate strictly exceeds 20.0; the duplicate-ish events are exactly
those of `Rejected{in_progress}`, `Rejected{mismatch}`, `Replay` **and
`InvalidRequest`** (which shares HTTP status 422 with the mismatch
rejection, the discriminator `withMetrics` uses), and the new-ish events
are exactly those of `Accepted{new|retry|expired_reused}`. -/
theorem c9_anomaly_and_classification_amended :
    (∀ (now : Int) (m : Metrics),
      (snapshot now m).anomalyDetected = true ↔ (snapshot now m).windowDupRate > 20) ∧
    (∀ (req : PaymentRequest) (pid : String) (now ttl : Int) (s : Store),
      (dupEventOf (processPayment req pid now ttl s).2 = some true ↔
        (isInProgress (processPayment req pid now ttl s).2 = true ∨
         isMismatchRejection (processPayment req pid now ttl s).2 = true ∨
         isReplay (processPayment req pid now ttl s).2 = true ∨
         isInvalidRequest (processPayment req pid now ttl s).2 = true)) ∧
      (dupEventOf (processPayment req pid now ttl s).2 = some false ↔
        (isAcceptedNew (processPayment req pid now ttl s).2 = true ∨
         isAcceptedRetry (processPayment req pid now ttl s).2 = true ∨
         isExpiredReused (processPayment req pid now ttl s).2 = true))) := by
  constructor
  · intro now m
    simp [snapshot]
  · intro req pid now ttl s
    rcases processPayment_shapes req pid now ttl s with h | h | ⟨resp, h, hm⟩ |
      ⟨resp, h, hm⟩ | ⟨resp, h, hm⟩
    · rw [h]
      simp [dupEventOf, ProcessResult.code, isInProgress, isMismatchRejection,
            isReplay, isInvalidRequest, isAcceptedNew, isAcceptedRetry,
            isExpiredReused]
    · rw [h]
      simp [dupEventOf, ProcessResult.code, isInProgress, isMismatchRejection,
            isReplay, isInvalidRequest, isAcceptedNew, isAcceptedRetry,
            isExpiredReused]
    · rw [h]
      rcases hm with hm | hm | hm <;>
        simp [dupEventOf, ProcessResult.code, isInProgress, isMismatchRejection,
              isReplay, isInvalidRequest, isAcceptedNew, isAcceptedRetry,
              isExpiredReused, hm]
    · rw [h]
      simp [dupEventOf, ProcessResult.code, isInProgress, isMismatchRejection,
            isReplay, isInvalidRequest, isAcceptedNew, isAcceptedRetry,
            isExpiredReused, hm]
    · rw [h]
      simp [dupEventOf, ProcessResult.code, isInProgress, isMismatchRejection,
            isReplay, isInvalidRequest, isAcceptedNew, isAcceptedRetry,
            isExpiredReused, hm]

/-! ## C8 — duplicate report -/

/-- The per-record amount at risk: `amount × (attempt_count − 1)`. -/
def atRiskOf (r : Record) : Int := r.amount * ((r.attemptCount : Int) - 1)

theorem reportStep_foldl_suspicious (ds : List Record) :
    ∀ acc, (ds.foldl reportStep acc).1 =
      acc.1 ++ (ds.filter (fun d => d.attemptCount > suspiciousThreshold)).map
        toSuspicious := by
  induction ds with
  | nil => intro acc; simp
  | cons d rest ih =>
    intro acc
    rw [List.foldl_cons, ih]
    by_cases hd : d.attemptCount > suspiciousThreshold
    · simp [reportStep, hd]
    · simp [reportStep, hd]

theorem reportStep_foldl_amount (ds : List Record) :
    ∀ acc, (ds.foldl reportStep acc).2.1 = acc.2.1 + (ds.map atRiskOf).sum := by
  induction ds with
  | nil => intro acc; simp
  | cons d rest ih =>
    intro acc
    rw [List.foldl_cons, ih]
    simp [reportStep, atRiskOf]
    ring

theorem reportStep_foldl_breakdown (ds : List Record) :
    ∀ acc c, (ds.foldl reportStep acc).2.2 c =
      acc.2.2 c + ((ds.filter (fun d => d.currency = c)).map atRiskOf).sum := by
  induction ds with
  | nil => intro acc c; simp
  | cons d rest ih =>
    intro acc c
    rw [List.foldl_cons, ih]
    by_cases hc : d.currency = c
    · subst hc
      simp [reportStep, atRiskOf]
      ring
    · have hc' : ¬ c = d.currency := fun h => hc h.symm
      simp [reportStep, atRiskOf, hc, hc']

theorem totalRequests_nonneg (db : List Record) (mid : String) (tFrom tTo : Int) :
    0 ≤ (getMerchantStats db mid tFrom tTo).1 := by
  simp only [getMerchantStats]
  apply List.sum_nonneg
  intro x hx
  simp only [List.mem_map] at hx
  obtain ⟨r, _, rfl⟩ := hx
  exact Int.natCast_nonneg _

/-- C8: the duplicate report satisfies all five claimed equations:
`duplicate_count = total − unique`; the rate is `duplicate_count / total ×
100` (0 when `total = 0`); `suspicious_keys` holds exactly the in-range
records with `attempt_count > 3`; `amount_at_risk` is the sum of
`amount × (attempt_count − 1)` over the in-range duplicate
(`attempt_count > 1`) records; and the currency breakdown maps each
currency to the amount at risk of its duplicate records. -/
theorem c8_duplicate_report (db : List Record) (mid : String) (tFrom tTo : Int) :
    (getDuplicateReport db mid tFrom tTo).duplicateCount =
      (getDuplicateReport db mid tFrom tTo).totalRequests -
      (getDuplicateReport db mid tFrom tTo).uniquePayments ∧
    ((getDuplicateReport db mid tFrom tTo).totalRequests = 0 →
      (getDuplicateReport db mid tFrom tTo).duplicateRate = 0) ∧
    ((getDuplicateReport db mid tFrom tTo).totalRequests ≠ 0 →
      (getDuplicateReport db mid tFrom tTo).duplicateRate =
        ((getDuplicateReport db mid tFrom tTo).duplicateCount : ℚ) /
          ((getDuplicateReport db mid tFrom tTo).totalRequests : ℚ) * 100) ∧
    (∀ sk, sk ∈ (getDuplicateReport db mid tFrom tTo).suspiciousKeys ↔
      ∃ r ∈ db, inRange mid tFrom tTo r = true ∧ r.attemptCount > 3 ∧
        sk = toSuspicious r) ∧
    (getDuplicateReport db mid tFrom tTo).amountAtRisk =
      ((getDuplicates db mid tFrom tTo).map atRiskOf).sum ∧
    (∀ c, (getDuplicateReport db mid tFrom tTo).currencyBreakdown c =
      (((getDuplicates db mid tFrom tTo).filter (fun r => r.currency = c)).map
        atRiskOf).sum) := by
  refine ⟨rfl, ?_, ?_, ?_, ?_, ?_⟩
  · intro h0
    simp only [getDuplicateReport] at h0 ⊢
    rw [if_neg (by omega)]
  · intro h0
    have hpos : 0 < (getMerchantStats db mid tFrom tTo).1 := by
      have := totalRequests_nonneg db mid tFrom tTo
      simp only [getDuplicateReport, ne_eq] at h0
      omega
    simp only [getDuplicateReport]
    rw [if_pos hpos]
  · intro sk
    simp only [getDuplicateReport, reportStep_foldl_suspicious, List.nil_append]
    rw [List.mem_map]
    constructor
    · rintro ⟨r, hr, rfl⟩
      rw [List.mem_filter] at hr
      obtain ⟨hr1, hr2⟩ := hr
      rw [getDuplicates, List.mem_filter] at hr1
      obtain ⟨hdb, hcond⟩ := hr1
      simp only [Bool.and_eq_true, decide_eq_true_eq] at hcond
      refine ⟨r, hdb, hcond.1, ?_, rfl⟩
      simpa [suspiciousThreshold] using hr2
    · rintro ⟨r, hdb, hin, hgt, rfl⟩
      refine ⟨r, ?_, rfl⟩
      rw [List.mem_filter]
      constructor
      · rw [getDuplicates, List.mem_filter]
        refine ⟨hdb, ?_⟩
        simp only [Bool.and_eq_true, decide_eq_true_eq]
        exact ⟨hin, by omega⟩
      · simpa [suspiciousThreshold] using hgt
  · simp only [getDuplicateReport, reportStep_foldl_amount]
    simp
  · intro c
    simp only [getDuplicateReport, reportStep_foldl_breakdown]
    simp

/-- A small concrete table for the C8 witness: three in-range rows for
merchant `m1` with attempt counts 1, 2 and 8, plus one other-merchant
row. -/
def sampleDb : List Record :=
  [mkRec .succeeded "h1" "pay_1" none none 50,
   { mkRec .succeeded "h2" "pay_2" none none 50 with
     idempotencyKey := "key-B", attemptCount := 2, amount := 100, currency := "USD" },
   { mkRec .failed "h3" "pay_3" none none 50 with
     idempotencyKey := "key-C", attemptCount := 8, amount := 7, currency := "BRL" },
   { mkRec .processing "h4" "pay_4" none none 50 with
     idempotencyKey := "key-D", merchantID := "m2", attemptCount := 5 }]

/-- Witness for C8 at `sampleDb` over `[0, 100]`: total = 11, unique = 3,
duplicate_count = 8, rate = 800/11, suspicious = the attempt-8 row,
amount_at_risk = 100·1 + 7·7 = 149, breakdown USD ↦ 100, BRL ↦ 49. -/
theorem c8_duplicate_report_witness :
    (getDuplicateReport sampleDb "m1" 0 100).duplicateCount =
      (getDuplicateReport sampleDb "m1" 0 100).totalRequests -
      (getDuplicateReport sampleDb "m1" 0 100).uniquePayments ∧
    (getDuplicateReport sampleDb "m1" 0 100).duplicateRate =
      ((getDuplicateReport sampleDb "m1" 0 100).duplicateCount : ℚ) /
        ((getDuplicateReport sampleDb "m1" 0 100).totalRequests : ℚ) * 100 ∧
    ((toSuspicious { mkRec .failed "h3" "pay_3" none none 50 with
        idempotencyKey := "key-C", attemptCount := 8, amount := 7,
        currency := "BRL" }) ∈
      (getDuplicateReport sampleDb "m1" 0 100).suspiciousKeys ↔
      ∃ r ∈ sampleDb, inRange "m1" 0 100 r = true ∧ r.attemptCount > 3 ∧
        (toSuspicious { mkRec .failed "h3" "pay_3" none none 50 with
          idempotencyKey := "key-C", attemptCount := 8, amount := 7,
          currency := "BRL" }) = toSuspicious r) ∧
    (getDuplicateReport sampleDb "m1" 0 100).amountAtRisk =
      ((getDuplicates sampleDb "m1" 0 100).map atRiskOf).sum ∧
    (getDuplicateReport sampleDb "m1" 0 100).currencyBreakdown "USD" =
      (((getDuplicates sampleDb "m1" 0 100).filter
        (fun r => r.currency = "USD")).map atRiskOf).sum :=
  ⟨(c8_duplicate_report sampleDb "m1" 0 100).1,
   (c8_duplicate_report sampleDb "m1" 0 100).2.2.1 (by decide),
   (c8_duplicate_report sampleDb "m1" 0 100).2.2.2.1 _,
   (c8_duplicate_report sampleDb "m1" 0 100).2.2.2.2.1,
   (c8_duplicate_report sampleDb "m1" 0 100).2.2.2.2.2 "USD"⟩

/-! ## C5 — fingerprint properties

Determinism and key-independence are direct.  For sensitivity we analyse
the canonical encoding `"{m}|{c}|{amount}|{cur}"`: it is injective as long
as the string fields contain no `'|'` separator — and *not* in general,
which refutes part (iii) of the claim.  The analysis needs the base-10
digit string of core's `Nat.repr` made explicit. -/

/-- The base-10 digit characters of `n`, most significant first (the
logical content of core's fuelled `Nat.toDigitsCore`). -/
def natDigs (n : Nat) : List Char :=
  if n < 10 then [Nat.digitChar n]
  else natDigs (n / 10) ++ [Nat.digitChar (n % 10)]
termination_by n
decreasing_by
  exact Nat.div_lt_self (by omega) (by omega)

theorem digitChar_inj : ∀ m, m < 10 → ∀ n, n < 10 →
    Nat.digitChar m = Nat.digitChar n → m = n := by decide

theorem digitChar_not_sep : ∀ d, d < 10 →
    Nat.digitChar d ≠ '|' ∧ Nat.digitChar d ≠ '-' := by decide

theorem natDigs_lt {n : Nat} (h : n < 10) : natDigs n = [Nat.digitChar n] := by
  rw [natDigs, if_pos h]

theorem natDigs_ge {n : Nat} (h : ¬ n < 10) :
    natDigs n = natDigs (n / 10) ++ [Nat.digitChar (n % 10)] := by
  conv_lhs => rw [natDigs]
  rw [if_neg h]

theorem toDigitsCore_eq_natDigs :
    ∀ (fuel n : Nat) (ds : List Char), n < fuel →
      Nat.toDigitsCore 10 fuel n ds = natDigs n ++ ds := by
  intro fuel
  induction fuel with
  | zero => intro n ds h; omega
  | succ f ih =>
    intro n ds h
    show (if n / 10 = 0 then Nat.digitChar (n % 10) :: ds
          else Nat.toDigitsCore 10 f (n / 10) (Nat.digitChar (n % 10) :: ds)) = _
    by_cases h10 : n < 10
    · rw [if_pos (Nat.div_eq_of_lt h10), natDigs_lt h10, Nat.mod_eq_of_lt h10]
      rfl
    · have hdiv : n / 10 ≠ 0 := by
        intro h0
        have := Nat.div_eq_zero_iff (by omega : 0 < 10) |>.mp h0
        omega
      have hlt : n / 10 < n := Nat.div_lt_self (by omega) (by omega)
      rw [if_neg hdiv, ih (n / 10) (Nat.digitChar (n % 10) :: ds) (by omega),
          natDigs_ge h10, List.append_assoc]
      rfl

theorem natRepr_eq_natDigs (n : Nat) : Nat.repr n = (natDigs n).asString := by
  show (Nat.toDigitsCore 10 (n + 1) n []).asString = _
  rw [toDigitsCore_eq_natDigs (n + 1) n [] (by omega), List.append_nil]

theorem natDigs_ne_nil (n : Nat) : natDigs n ≠ [] := by
  by_cases h : n < 10
  · rw [natDigs_lt h]; simp
  · rw [natDigs_ge h]; simp

theorem natDigs_not_sep (n : Nat) : ∀ c ∈ natDigs n, c ≠ '|' ∧ c ≠ '-' := by
  induction n using Nat.strong_induction_on with
  | _ n ih =>
    by_cases h : n < 10
    · rw [natDigs_lt h]
      intro c hc
      rw [List.mem_singleton] at hc
      subst hc
      exact digitChar_not_sep n h
    · rw [natDigs_ge h]
      intro c hc
      rcases List.mem_append.mp hc with hc | hc
      · exact ih (n / 10) (Nat.div_lt_self (by omega) (by omega)) c hc
      · rw [List.mem_singleton] at hc
        subst hc
        exact digitChar_not_sep (n % 10) (Nat.mod_lt n (by omega))

theorem natDigs_inj (m : Nat) : ∀ n, natDigs m = natDigs n → m = n := by
  induction m using Nat.strong_induction_on with
  | _ m ih =>
    intro n h
    by_cases hm : m < 10 <;> by_cases hn : n < 10
    · rw [natDigs_lt hm, natDigs_lt hn] at h
      exact digitChar_inj m hm n hn (by simpa using h)
    · exfalso
      rw [natDigs_lt hm, natDigs_ge hn] at h
      have hlen := congrArg List.length h
      simp only [List.length_singleton, List.length_append] at hlen
      exact natDigs_ne_nil (n / 10) (List.length_eq_zero.mp (by omega))
    · exfalso
      rw [natDigs_ge hm, natDigs_lt hn] at h
      have hlen := congrArg List.length h
      simp only [List.length_singleton, List.length_append] at hlen
      exact natDigs_ne_nil (m / 10) (List.length_eq_zero.mp (by omega))
    · rw [natDigs_ge hm, natDigs_ge hn] at h
      have h' := congrArg List.reverse h
      simp only [List.reverse_append, List.reverse_singleton,
        List.singleton_append, List.cons.injEq] at h'
      have h1 : m % 10 = n % 10 :=
        digitChar_inj _ (Nat.mod_lt m (by omega)) _ (Nat.mod_lt n (by omega)) h'.1
      have h2 : m / 10 = n / 10 :=
        ih (m / 10) (Nat.div_lt_self (by omega) (by omega)) (n / 10)
          (List.reverse_injective h'.2)
      omega

theorem string_data_append (a b : String) : (a ++ b).data = a.data ++ b.data := rfl

theorem string_data_inj {a b : String} (h : a.data = b.data) : a = b := by
  cases a
  cases b
  exact congrArg String.mk h

theorem natRepr_inj {m n : Nat} (h : Nat.repr m = Nat.repr n) : m = n := by
  rw [natRepr_eq_natDigs, natRepr_eq_natDigs] at h
  exact natDigs_inj m n (congrArg String.data h)

theorem intToString_inj {a b : Int} (h : toString a = toString b) : a = b := by
  have h' : Int.repr a = Int.repr b := h
  cases a with
  | ofNat m =>
    cases b with
    | ofNat n => exact congrArg Int.ofNat (natRepr_inj h')
    | negSucc n =>
      exfalso
      have hd : natDigs m = '-' :: (Nat.repr (n + 1)).data := by
        have := congrArg String.data h'
        rw [show (Int.repr (Int.ofNat m)) = Nat.repr m from rfl] at this
        rw [natRepr_eq_natDigs] at this
        exact this
      have := (natDigs_not_sep m '-' (by rw [hd]; exact List.mem_cons_self _ _)).2
      exact this rfl
  | negSucc m =>
    cases b with
    | ofNat n =>
      exfalso
      have hd : natDigs n = '-' :: (Nat.repr (m + 1)).data := by
        have := congrArg String.data h'.symm
        rw [show (Int.repr (Int.ofNat n)) = Nat.repr n from rfl] at this
        rw [natRepr_eq_natDigs] at this
        exact this
      have := (natDigs_not_sep n '-' (by rw [hd]; exact List.mem_cons_self _ _)).2
      exact this rfl
    | negSucc n =>
      have hd := congrArg String.data h'
      simp only [Int.repr, string_data_append] at hd
      have h1 : Nat.repr (m + 1) = Nat.repr (n + 1) :=
        string_data_inj (by simpa using hd)
      have h2 := natRepr_inj h1
      have h3 : m = n := by omega
      rw [h3]

theorem intToString_no_pipe (i : Int) : ∀ c ∈ (toString i).data, c ≠ '|' := by
  have hrepr : (toString i) = Int.repr i := rfl
  rw [hrepr]
  cases i with
  | ofNat m =>
    intro c hc
    rw [show Int.repr (Int.ofNat m) = Nat.repr m from rfl, natRepr_eq_natDigs] at hc
    exact (natDigs_not_sep m c hc).1
  | negSucc m =>
    intro c hc
    simp only [Int.repr, string_data_append] at hc
    rcases List.mem_append.mp hc with hc | hc
    · rw [List.mem_singleton] at hc
      subst hc
      decide
    · rw [natRepr_eq_natDigs] at hc
      exact (natDigs_not_sep (m + 1) c hc).1

/-- Splitting at the first `'|'` is unambiguous when the left component is
`'|'`-free. -/
theorem pipe_split : ∀ (a c : List Char), (∀ x ∈ a, x ≠ '|') →
    (∀ x ∈ c, x ≠ '|') → ∀ (b d : List Char),
    a ++ '|' :: b = c ++ '|' :: d → a = c ∧ b = d := by
  intro a
  induction a with
  | nil =>
    intro c _ hc b d h
    cases c with
    | nil => simpa using h
    | cons x xs =>
      exfalso
      simp only [List.nil_append, List.cons_append, List.cons.injEq] at h
      exact hc x (List.mem_cons_self _ _) h.1.symm
  | cons y ys ih =>
    intro c ha hc b d h
    cases c with
    | nil =>
      exfalso
      simp only [List.cons_append, List.nil_append, List.cons.injEq] at h
      exact ha y (List.mem_cons_self _ _) h.1
    | cons x xs =>
      simp only [List.cons_append, List.cons.injEq] at h
      obtain ⟨rfl, h2⟩ := h
      have := ih xs (fun z hz => ha z (List.mem_cons_of_mem _ hz))
        (fun z hz => hc z (List.mem_cons_of_mem _ hz)) b d h2
      exact ⟨by rw [this.1], this.2⟩

/-- A string without the `'|'` separator. -/
def noPipe (s : String) : Prop := ∀ c ∈ s.data, c ≠ '|'

instance : DecidablePred noPipe := fun s => List.decidableBAll _ s.data

theorem canonicalParams_data (p : PaymentRequest) :
    (canonicalParams p).data =
      p.merchantID.data ++ '|' :: (p.customerID.data ++ '|' ::
        ((toString p.amount).data ++ '|' :: p.currency.data)) := by
  simp [canonicalParams, string_data_append, List.append_assoc]

/-- The canonical encoding is injective in the four fields when the string
fields are separator-free. -/
theorem canonicalParams_inj (p q : PaymentRequest)
    (hm : noPipe p.merchantID) (hc : noPipe p.customerID)
    (hcur : noPipe p.currency) (hm' : noPipe q.merchantID)
    (hc' : noPipe q.customerID) (hcur' : noPipe q.currency)
    (hne : (p.merchantID, p.customerID, p.amount, p.currency) ≠
           (q.merchantID, q.customerID, q.amount, q.currency)) :
    canonicalParams p ≠ canonicalParams q := by
  intro heq
  have hd := congrArg String.data heq
  rw [canonicalParams_data, canonicalParams_data] at hd
  obtain ⟨e1, hd⟩ := pipe_split _ _ hm hm' _ _ hd
  obtain ⟨e2, hd⟩ := pipe_split _ _ hc hc' _ _ hd
  obtain ⟨e3, e4⟩ := pipe_split _ _ (intToString_no_pipe p.amount)
    (intToString_no_pipe q.amount) _ _ hd
  exact hne (by
    rw [string_data_inj e1, string_data_inj e2,
        intToString_inj (string_data_inj e3), string_data_inj e4])

/-- The colliding pair for the C5 counterexample: same amount, currency
and key, but `(merchant "a|b", customer "c")` vs
`(merchant "a", customer "b|c")`. -/
def pipeReq1 : PaymentRequest :=
  { idempotencyKey := "k", merchantID := "a|b", customerID := "c",
    amount := 1, currency := "USD" }

def pipeReq2 : PaymentRequest :=
  { idempotencyKey := "k", merchantID := "a", customerID := "b|c",
    amount := 1, currency := "USD" }

/-- C5 counterexample: part (iii) of the claim fails.  `pipeReq1` and
`pipeReq2` differ in two of the four fingerprint inputs, yet their
canonical encodings are both `"a|b|c|1|USD"`, so their SHA-256 digests are
identical. -/
theorem c5_fingerprint_counterexample :
    pipeReq1.merchantID ≠ pipeReq2.merchantID ∧
    pipeReq1.customerID ≠ pipeReq2.customerID ∧
    PaymentRequest.hash pipeReq1 = PaymentRequest.hash pipeReq2 := by
  refine ⟨by decide, by decide, ?_⟩
  have hcanon : canonicalParams pipeReq1 = canonicalParams pipeReq2 := by decide
  exact congrArg sha256hex hcanon

/-- C5 amended: the fingerprint is (i) deterministic and (ii) independent
of the idempotency key, as claimed; part (iii) holds only up to the
canonical encoding: whenever the string fields are `'|'`-free, two tuples
differing in any of the four fields have *distinct canonical encodings*
(distinct digest inputs) — but fields containing the `'|'` separator can
make two different tuples encode (and hence hash) identically, and digest
distinctness beyond that would additionally require SHA-256 collision
freedom, which the spec does not assume. -/
theorem c5_fingerprint_amended :
    (∀ p q : PaymentRequest, p.merchantID = q.merchantID →
      p.customerID = q.customerID → p.amount = q.amount →
      p.currency = q.currency → p.hash = q.hash) ∧
    (∀ (p : PaymentRequest) (k : String),
      PaymentRequest.hash { p with idempotencyKey := k } = p.hash) ∧
    (∀ p q : PaymentRequest, noPipe p.merchantID → noPipe p.customerID →
      noPipe p.currency → noPipe q.merchantID → noPipe q.customerID →
      noPipe q.currency →
      (p.merchantID, p.customerID, p.amount, p.currency) ≠
        (q.merchantID, q.customerID, q.amount, q.currency) →
      canonicalParams p ≠ canonicalParams q) := by
  refine ⟨?_, ?_, canonicalParams_inj⟩
  · intro p q h1 h2 h3 h4
    show sha256hex (canonicalParams p) = sha256hex (canonicalParams q)
    rw [canonicalParams, canonicalParams, h1, h2, h3, h4]
  · intro p k
    rfl

/-- Witness for C5 (amended): determinism across two records that differ
only in their keys, key-independence at a concrete key, and sensitivity at
two separator-free inputs differing in `amount`. -/
theorem c5_fingerprint_amended_witness :
    PaymentRequest.hash
        { idempotencyKey := "k1", merchantID := "m1", customerID := "c1",
          amount := 5000, currency := "BRL" } =
      PaymentRequest.hash
        { idempotencyKey := "k2", merchantID := "m1", customerID := "c1",
          amount := 5000, currency := "BRL" } ∧
    PaymentRequest.hash { sampleReq with idempotencyKey := "other" } =
      sampleReq.hash ∧
    canonicalParams sampleReq ≠
      canonicalParams { sampleReq with amount := 9999 } :=
  ⟨c5_fingerprint_amended.1
     { idempotencyKey := "k1", merchantID := "m1", customerID := "c1",
       amount := 5000, currency := "BRL" }
     { idempotencyKey := "k2", merchantID := "m1", customerID := "c1",
       amount := 5000, currency := "BRL" } rfl rfl rfl rfl,
   c5_fingerprint_amended.2.1 sampleReq "other",
   c5_fingerprint_amended.2.2 sampleReq { sampleReq with amount := 9999 }
     (by decide) (by decide) (by decide) (by decide) (by decide) (by decide)
     (by decide)⟩

end IdemShield
